import Mathlib

/-!
Verification development for the streamdown-svelte core:
the hardened URL transformer (`src/lib/streamdown_marked/lib/harden-markdown.ts`)
and the block-math merge step of the segmenter
(`src/lib/streamdown_marked/lib/parse-blocks.ts`).

JavaScript strings are embedded as Lean `String`s and every string
operation the source uses (trim, startsWith, endsWith, regex tests,
match-count) is realised as an explicit scan over the character list,
so that all definitions are executable and kernel-reducible.
Whitespace is the ASCII whitespace (space, tab, LF, CR) relevant to the
inputs the source handles.
-/

/-- ASCII whitespace as used by the JS string trimming / `\s` class on the
inputs involved (space, tab, newline, carriage return). -/
def jsWs (c : Char) : Bool :=
  c == ' ' || c == '\t' || c == '\n' || c == '\r'

/-- List-level prefix test (Boolean), used to embed `String.startsWith`. -/
def isPreOf : List Char → List Char → Bool
  | [], _ => true
  | _ :: _, [] => false
  | a :: as, b :: bs => a == b && isPreOf as bs

/-- Embedding of JS `String.prototype.startsWith`. -/
def startsWithL (s pat : String) : Bool := isPreOf pat.data s.data

/-- Embedding of JS `String.prototype.endsWith`. -/
def endsWithL (s pat : String) : Bool := isPreOf pat.data.reverse s.data.reverse

/-- Embedding of JS `String.prototype.trimStart`. -/
def trimLeftL (s : String) : String := ⟨s.data.dropWhile jsWs⟩

/-- Embedding of JS `String.prototype.trimEnd`. -/
def trimRightL (s : String) : String := ⟨(s.data.reverse.dropWhile jsWs).reverse⟩

/-- Embedding of JS `String.prototype.trim`. -/
def trimL (s : String) : String := ⟨((s.data.dropWhile jsWs).reverse.dropWhile jsWs).reverse⟩

/-- ASCII lower-casing of one character, embedding JS `toLowerCase` /
case-insensitive regex matching on the ASCII tokens the source uses. -/
def lowerChar (c : Char) : Char :=
  if 'A' ≤ c && c ≤ 'Z' then Char.ofNat (c.toNat + 32) else c

/-- ASCII lower-casing of a string. -/
def lowerStr (s : String) : String := ⟨s.data.map lowerChar⟩

/-- Number of non-overlapping occurrences of `$$`, embedding
`(s.match(/\$\$/g) || []).length` from parse-blocks.ts. -/
def countSSAux : List Char → Nat
  | '$' :: '$' :: rest => countSSAux rest + 1
  | _ :: rest => countSSAux rest
  | [] => 0

/-- String-level wrapper for `countSSAux`. -/
def countSS (s : String) : Nat := countSSAux s.data

/- ### Suspicious-pattern pre-check (harden-markdown.ts, hasSuspiciousPatterns) -/

/-- Character class of the control-character regex
`/[\x00-\x08\x0B\x0C\x0E-\x1F\x7F]/` in hasSuspiciousPatterns. -/
def isCtlChar (c : Char) : Bool :=
  c.toNat ≤ 0x08 || c.toNat == 0x0B || c.toNat == 0x0C ||
  (0x0E ≤ c.toNat && c.toNat ≤ 0x1F) || c.toNat == 0x7F

/-- Character class of the zero-width regex `/[​-‍﻿]/`
in hasSuspiciousPatterns. -/
def isZeroWidth (c : Char) : Bool :=
  (0x200B ≤ c.toNat && c.toNat ≤ 0x200D) || c.toNat == 0xFEFF

/-- The protocol tokens of the malformed-protocol regex in
hasSuspiciousPatterns (the alternation before `\s*:`). -/
def dangerousTokens : List String :=
  ["javascript", "data", "vbscript", "about", "chrome", "chrome-extension",
   "moz-extension", "file", "blob", "filesystem", "jar", "ms-appx",
   "ms-appx-web", "res", "resource", "app", "intent", "android-app",
   "mailto", "tel", "sms", "ftp", "ws", "wss", "jscript", "ecmascript",
   "livescript"]

/-- After a protocol token: optional whitespace then a colon (`\s*:`). -/
def afterOptWsColon : List Char → Bool
  | [] => false
  | c :: rest => if c == ':' then true else if jsWs c then afterOptWsColon rest else false

/-- Does some dangerous-protocol token followed by `\s*:` match at the head
of the (already lower-cased) character list? -/
def protoMatchHere (l : List Char) : Bool :=
  dangerousTokens.any fun t => isPreOf t.data l && afterOptWsColon (l.drop t.data.length)

/-- Scan of all positions, embedding the unanchored case-insensitive regex
`/(?:javascript|data|...|livescript)\s*:/i` of hasSuspiciousPatterns. -/
def protoScanAux : List Char → Bool
  | [] => false
  | c :: rest => protoMatchHere (c :: rest) || protoScanAux rest

/-- Unanchored match of the malformed-protocol regex on a raw string. -/
def protoScan (cs : List Char) : Bool := protoScanAux (cs.map lowerChar)

/-- Embedding of `hasSuspiciousPatterns` from harden-markdown.ts:
three unanchored regex tests on the raw, un-normalised string. -/
def hasSuspiciousPatterns (url : String) : Bool :=
  url.data.any isCtlChar || url.data.any isZeroWidth || protoScan url.data

/- ### Platform URL primitive (abstract) and its model -/

/-- The fields of a parsed WHATWG `URL` object that transformUrl reads. -/
structure URLRec where
  protocol : String
  origin : String
  href : String
  pathname : String
  search : String
  hash : String
deriving DecidableEq

/-- The platform URL-parsing primitive the source delegates to:
`new URL(url)` and `new URL(url, base)`, abstracted as functions so that
theorems can quantify over every parser behaviour. -/
structure UrlPlatform where
  parseAbs : String → Option URLRec
  parseRel : String → String → Option URLRec

/-- Embedding of the `parseUrl` closure of createHardenedUrlTransformer:
try absolute parse first, then fall back to the default origin when one is
configured (`defaultOrigin` falsy means the empty string). -/
def parseUrl (P : UrlPlatform) (defaultOrigin : String) (url : String) : Option URLRec :=
  match P.parseAbs url with
  | some u => some u
  | none => if defaultOrigin ≠ "" then P.parseRel url defaultOrigin else none

/-- Embedding of the dangerous-protocol list of `isDangerousProtocol`
in harden-markdown.ts. -/
def dangerousProtocols : List String :=
  ["javascript:", "data:", "vbscript:", "about:", "chrome:",
   "chrome-extension:", "moz-extension:", "file:", "blob:", "filesystem:",
   "jar:", "ms-appx:", "ms-appx-web:", "res:", "resource:", "app:",
   "intent:", "android-app:", "mailto:", "tel:", "sms:", "ftp:", "ws:",
   "wss:", "jscript:", "ecmascript:", "livescript:"]

/-- Embedding of `isDangerousProtocol` from harden-markdown.ts. -/
def isDangerousProtocol (protocol : String) : Bool :=
  dangerousProtocols.contains (lowerStr protocol)

/-- Embedding of the per-candidate callback inside
`allowedPrefixes.some(...)` in transformUrl: parse the allow-list entry,
require exact origin equality, then require the candidate's normalised
href to start with the entry's normalised href. -/
def pfxAccepts (P : UrlPlatform) (defaultOrigin : String) (parsed : URLRec)
    (pfx : String) : Bool :=
  match parseUrl P defaultOrigin pfx with
  | none => false
  | some pp => pp.origin == parsed.origin && startsWithL parsed.href pp.href

/-- Embedding of `transformUrl` from createHardenedUrlTransformer
(harden-markdown.ts), for string inputs: falsy check, the
streamdown:incomplete-link special case, the suspicious-pattern
pre-check, parse, dangerous-protocol check, allow-list match, wildcard
fallback, and the relative/absolute output rule. -/
def transformUrl (P : UrlPlatform) (allowedPfxs : List String)
    (defaultOrigin : String) (url : String) : Option String :=
  if url = "" then none
  else if url = "streamdown:incomplete-link" then some url
  else if hasSuspiciousPatterns url then none
  else
    match parseUrl P defaultOrigin url with
    | none => none
    | some parsed =>
      if isDangerousProtocol parsed.protocol then none
      else
        if allowedPfxs.any (pfxAccepts P defaultOrigin parsed) then
          if startsWithL url "/" then
            some (parsed.pathname ++ parsed.search ++ parsed.hash)
          else some parsed.href
        else if allowedPfxs.contains "*" then
          if parsed.protocol ≠ "https:" ∧ parsed.protocol ≠ "http:" then none
          else if startsWithL url "/" then
            some (parsed.pathname ++ parsed.search ++ parsed.hash)
          else some parsed.href
        else none

/- ### A concrete model of the WHATWG URL primitive -/

/-- ASCII letter test (for URL scheme parsing). -/
def isAsciiAlpha (c : Char) : Bool :=
  ('a' ≤ c && c ≤ 'z') || ('A' ≤ c && c ≤ 'Z')

/-- Characters allowed after the first character of a URL scheme. -/
def isSchemeChar (c : Char) : Bool :=
  isAsciiAlpha c || c.isDigit || c == '+' || c == '-' || c == '.'

/-- Tail of the scheme scanner: accumulate scheme characters until `:`. -/
def schemeTail (acc : List Char) : List Char → Option (List Char × List Char)
  | [] => none
  | c :: rest =>
      if c == ':' then some (acc.reverse, rest)
      else if isSchemeChar c then schemeTail (c :: acc) rest
      else none

/-- Split a leading `scheme:` off a character list, WHATWG-style
(first char ASCII alpha, then alphanumeric or `+`/`-`/`.`). -/
def splitScheme : List Char → Option (List Char × List Char)
  | [] => none
  | c :: rest => if isAsciiAlpha c then schemeTail [c] rest else none

/-- Take characters until the predicate holds; returns (taken, rest). -/
def takeUntil (p : Char → Bool) : List Char → List Char × List Char
  | [] => ([], [])
  | c :: rest =>
      if p c then ([], c :: rest)
      else
        let r := takeUntil p rest
        (c :: r.1, r.2)

/-- Split a character list on `/` separators. -/
def splitSlash : List Char → List (List Char)
  | [] => [[]]
  | c :: rest =>
      if c == '/' then [] :: splitSlash rest
      else
        match splitSlash rest with
        | s :: ss => (c :: s) :: ss
        | [] => [[c]]

/-- Path-segment resolution: drop `.` segments, let `..` pop the stack
(never above the root), keep a trailing slash when the last segment is
`.`/`..`/empty — the dot-segment removal the WHATWG parser performs. -/
def normSegs : List (List Char) → List (List Char) → List (List Char)
  | stack, [] => stack
  | stack, [s] =>
      if s = ['.'] then stack ++ [[]]
      else if s = ['.', '.'] then stack.dropLast ++ [[]]
      else stack ++ [s]
  | stack, s :: rest =>
      if s = ['.'] then normSegs stack rest
      else if s = ['.', '.'] then normSegs stack.dropLast rest
      else normSegs (stack ++ [s]) rest

/-- Rebuild a path from resolved segments, one leading `/` per segment. -/
def joinSegs (segs : List (List Char)) : List Char :=
  segs.foldl (fun acc s => acc ++ '/' :: s) []

/-- Normalise a URL path: empty becomes `/`, otherwise dot segments are
resolved. -/
def normalizePath (rawPath : List Char) : List Char :=
  match rawPath with
  | [] => ['/']
  | '/' :: rest => joinSegs (normSegs [] (splitSlash rest))
  | other => '/' :: other

/-- Modelled from the spec: the platform WHATWG URL constructor
(`new URL(url)`), which is not part of the repository. For `http`/`https`
URLs it lower-cases scheme and host and resolves `.`/`..` path segments
exactly as §4.3 of the spec describes (query and fragment preserved,
traversal resolved by the parser, origin = scheme://host); other schemes
produce an opaque-origin record whose `protocol` is the lower-cased
scheme followed by `:`. Userinfo/port syntax is not modelled — none of
the claims' inputs use it. -/
def parseAbsModel (s : String) : Option URLRec :=
  match splitScheme s.data with
  | none => none
  | some (scheme, rest) =>
    let schemeL := scheme.map lowerChar
    if schemeL = "http".data || schemeL = "https".data then
      match rest with
      | '/' :: '/' :: rest2 =>
        let hostRest := takeUntil (fun c => c == '/' || c == '?' || c == '#') rest2
        if hostRest.1 = [] then none
        else
          let hostL := hostRest.1.map lowerChar
          let pathRest := takeUntil (fun c => c == '?' || c == '#') hostRest.2
          let searchHash := takeUntil (fun c => c == '#') pathRest.2
          let path := normalizePath pathRest.1
          let origin := schemeL ++ "://".data ++ hostL
          some { protocol := ⟨schemeL ++ [':']⟩
                 origin := ⟨origin⟩
                 href := ⟨origin ++ path ++ searchHash.1 ++ searchHash.2⟩
                 pathname := ⟨path⟩
                 search := ⟨searchHash.1⟩
                 hash := ⟨searchHash.2⟩ }
      | _ => none
    else
      some { protocol := ⟨schemeL ++ [':']⟩, origin := "null", href := s,
             pathname := "", search := "", hash := "" }

/-- Modelled from the spec: the platform `new URL(url, base)` resolution,
simplified to the cases the source exercises (absolute inputs,
protocol-relative `//`, and root-relative `/` inputs). -/
def parseRelModel (url base : String) : Option URLRec :=
  match parseAbsModel url with
  | some u => some u
  | none =>
    match parseAbsModel base with
    | none => none
    | some b =>
      if startsWithL url "//" then parseAbsModel ⟨b.protocol.data ++ url.data⟩
      else if startsWithL url "/" then parseAbsModel (b.origin ++ url)
      else parseAbsModel (b.origin ++ "/" ++ url)

/-- The modelled platform URL primitive packaged for `transformUrl`. -/
def urlPlatformModel : UrlPlatform := ⟨parseAbsModel, parseRelModel⟩

/- ### Block-math merge step (parse-blocks.ts, parseMarkdownIntoTokens) -/

/-- The per-token data the merge loop of parseMarkdownIntoTokens reads:
the token's raw source text and its type tag (`extractMeta`). -/
structure TokenMeta where
  raw : String
  type : String
deriving DecidableEq

/-- Search for a closing delimiter line inside a block-math candidate:
a `\n`, then the delimiter, then a `\n` or the end of the string —
the `\n\1(?:\n|$)` tail of `blockKatexRegex`. -/
def closesWith (delim : List Char) : List Char → Bool
  | [] => false
  | c :: rest =>
      (c == '\n' && isPreOf delim rest &&
        (rest.drop delim.length == ([] : List Char) ||
          (rest.drop delim.length).head? == some '\n')) ||
      closesWith delim rest

/-- Embedding of `blockKatexRegex.test` from parse-blocks.ts, the regex
`^(\$\x7b1,2\x7d)\n([\s\S]*?)\n\1(?:\n|$)`: an opening `$$` (or `$`) on its
own at the start, a body, then the same delimiter after a newline,
followed by a newline or the end. -/
def blockKatexTest (s : String) : Bool :=
  match s.data with
  | '$' :: '$' :: '\n' :: rest => closesWith ['$', '$'] rest
  | '$' :: '\n' :: rest => closesWith ['$'] rest
  | _ => false

/-- Second merge heuristic of the loop (parse-blocks.ts lines 95-121):
current block ends with `$$`, previous block opened `$$` without closing,
current does not itself start with `$$` and holds exactly one `$$`, and
the concatenation passes the block-katex shape test. -/
def mergeStepTail (acc : List String) (prev : String) (m : TokenMeta) : List String :=
  if endsWithL (trimRightL m.raw) "$$" = true then
    if prev = "" then acc
    else if startsWithL (trimLeftL prev) "$$" = true ∧ countSS prev % 2 = 1 ∧
        startsWithL (trimLeftL m.raw) "$$" = false ∧ countSS m.raw = 1 ∧
        blockKatexTest (trimL (prev ++ m.raw)) = true then
      acc.dropLast ++ [prev ++ m.raw]
    else acc ++ [m.raw]
  else acc ++ [m.raw]

/-- First merge heuristic and dispatch (parse-blocks.ts lines 59-124):
katex tokens are pushed untouched; a standalone `$$` current block is
merged into a previous block that opened `$$` with an odd `$$` count when
the concatenation validates; otherwise the second heuristic runs.
A falsy (empty) previous block makes the loop `continue`, dropping the
current block, exactly as the `if (!previousBlock) continue` guard does. -/
def mergeStep (acc : List String) (m : TokenMeta) : List String :=
  if m.type = "blockKatex" ∨ m.type = "inlineKatex" then acc ++ [m.raw]
  else
    match acc.getLast? with
    | none => acc ++ [m.raw]
    | some prev =>
      if trimL m.raw = "$$" then
        if prev = "" then acc
        else if startsWithL (trimLeftL prev) "$$" = true ∧ countSS prev % 2 = 1 ∧
            blockKatexTest (trimL (prev ++ m.raw)) = true then
          acc.dropLast ++ [prev ++ m.raw]
        else mergeStepTail acc prev m
      else mergeStepTail acc prev m

/-- The whole merge pass over the lexer's token metadata, folding
`mergeStep` over the token list (the `for` loop of lines 59-124). -/
def mergeMathBlocks (toks : List TokenMeta) : List String :=
  toks.foldl mergeStep []

/- ### Modelled incomplete-markdown repairer -/

/-- The backtick character (code-span/fence delimiter). -/
def btChar : Char := Char.ofNat 0x60

/-- Lengths of the maximal runs of a character, in order. -/
def runLenGo (ch : Char) : List Char → Nat → List Nat
  | [], 0 => []
  | [], n + 1 => [n + 1]
  | c :: rest, n =>
      if c == ch then runLenGo ch rest (n + 1)
      else
        match n with
        | 0 => runLenGo ch rest 0
        | m + 1 => (m + 1) :: runLenGo ch rest 0

/-- Lengths of the maximal runs of `ch` in a character list. -/
def runLengths (ch : Char) (cs : List Char) : List Nat := runLenGo ch cs 0

/-- Is the count of non-overlapping `$$` odd (an opened, unclosed block
math delimiter)? -/
def countSSOdd (t : String) : Bool := countSS t % 2 == 1

/-- State scan for an unterminated single-`$` inline-math span: a single
`$` opens math only when followed by a non-digit, non-whitespace,
non-`$` character; a trailing bare `$` stays literal. -/
def dollarScan : Bool → List Char → Bool
  | st, [] => st
  | true, '$' :: rest => dollarScan false rest
  | false, '$' :: '$' :: rest => dollarScan false rest
  | false, ['$'] => false
  | false, '$' :: c :: rest =>
      if c.isDigit || jsWs c || c == '$' then dollarScan false (c :: rest)
      else dollarScan true (c :: rest)
  | st, _ :: rest => dollarScan st rest

/-- Does the text end inside an open single-`$` math span? -/
def singleDollarOpen (t : String) : Bool := dollarScan false t.data

/-- Modelled from the spec (§4.1a): close unterminated block math, with
the single-`$` currency special case. The source file
parse-incomplete-markdown.ts is absent from src/. -/
def handleMath (t : String) : String :=
  if countSSOdd t then t ++ "$$"
  else if singleDollarOpen t then t ++ "$" else t

/-- Odd number of triple-backtick fence delimiters? -/
def fenceBacktickOpen (t : String) : Bool :=
  ((runLengths btChar t.data).filter (fun n => 3 ≤ n)).length % 2 == 1

/-- Odd number of triple-tilde fence delimiters? -/
def fenceTildeOpen (t : String) : Bool :=
  ((runLengths '~' t.data).filter (fun n => 3 ≤ n)).length % 2 == 1

/-- Modelled from the spec (§4.1b): close unterminated fenced code blocks
(odd count of triple backticks or tildes). -/
def handleFences (t : String) : String :=
  let t1 := if fenceBacktickOpen t then t ++ "\n```" else t
  if fenceTildeOpen t1 then t1 ++ "\n~~~" else t1

/-- Inline code-span state over the backtick run lengths: a run of one or
two backticks opens a span closed only by a run of the same length. -/
def inlineCodeState : Option Nat → List Nat → Option Nat
  | st, [] => st
  | none, n :: rest => if n ≤ 2 then inlineCodeState (some n) rest else inlineCodeState none rest
  | some m, n :: rest => if n = m then inlineCodeState none rest else inlineCodeState (some m) rest

/-- Does the text end inside an open inline code span (and with which
delimiter length)? -/
def inlineCodeOpen (t : String) : Bool :=
  (inlineCodeState none (runLengths btChar t.data)).isSome

/-- Modelled from the spec (§4.1c): close an unterminated inline code
span with a matching backtick run. -/
def handleInlineCode (t : String) : String :=
  match inlineCodeState none (runLengths btChar t.data) with
  | none => t
  | some n => t ++ ⟨List.replicate n btChar⟩

/-- Emphasis delimiter tokens: `**`, `*`, `__`, `_`. -/
inductive EmphTok
  | dstar
  | sstar
  | dunder
  | sunder
deriving DecidableEq

/-- Decompose the text into its emphasis delimiter tokens in order. -/
def emphTokList : List Char → List EmphTok
  | [] => []
  | '*' :: '*' :: rest => .dstar :: emphTokList rest
  | '*' :: rest => .sstar :: emphTokList rest
  | '_' :: '_' :: rest => .dunder :: emphTokList rest
  | '_' :: rest => .sunder :: emphTokList rest
  | _ :: rest => emphTokList rest

/-- Matching-stack scan over emphasis tokens: a token equal to the top of
the stack closes it, anything else opens a new nesting level. The final
stack lists the unterminated delimiters, innermost first. -/
def emphStack : List EmphTok → List EmphTok → List EmphTok
  | stack, [] => stack
  | stack, t :: rest =>
    match stack with
    | s :: stail => if s = t then emphStack stail rest else emphStack (t :: stack) rest
    | [] => emphStack [t] rest

/-- The closing text for one emphasis token. -/
def emphCloser : EmphTok → String
  | .dstar => "**"
  | .sstar => "*"
  | .dunder => "__"
  | .sunder => "_"

/-- Is some emphasis construct left open at the end of the text? -/
def emphOpen (t : String) : Bool := !(emphStack [] (emphTokList t.data)).isEmpty

/-- Modelled from the spec (§4.1d): close unterminated bold/italic
emphasis in reverse-opening order (innermost first). -/
def handleEmphasis (t : String) : String :=
  (emphStack [] (emphTokList t.data)).foldl (fun acc tok => acc ++ emphCloser tok) t

/-- Bracket-depth scan (`[` opens, `]` closes, floored at zero). -/
def bracketDepth : Nat → List Char → Nat
  | d, [] => d
  | d, '[' :: rest => bracketDepth (d + 1) rest
  | d, ']' :: rest => bracketDepth (d - 1) rest
  | d, _ :: rest => bracketDepth d rest

/-- Does the text hold a `[` never closed by a `]`? -/
def hasUnmatchedOpenBracket (t : String) : Bool := bracketDepth 0 t.data != 0

/-- Split at the last `](` of the text: returns the part up to and
including that `](` and the remainder. -/
def splitAtLastLinkOpen : List Char → Option (List Char × List Char)
  | [] => none
  | ']' :: '(' :: rest =>
      match splitAtLastLinkOpen rest with
      | some (pre, post) => some (']' :: '(' :: pre, post)
      | none => some ([']', '('], rest)
  | c :: rest =>
      match splitAtLastLinkOpen rest with
      | some (pre, post) => some (c :: pre, post)
      | none => none

/-- Does the text end inside a link URL: a `](` with no `)` after it? -/
def danglingLinkUrl (t : String) : Bool :=
  match splitAtLastLinkOpen t.data with
  | some (_, post) => !(post.contains ')')
  | none => false

/-- Modelled from the spec (§4.1e and the §8 sentinel round-trip, pinned
by the repository's components test): an unterminated `[text` is
completed into an anchor pointing at the sentinel incomplete-link URL,
and an unterminated `[text](url` has its partial URL replaced by the
sentinel. The source file parse-incomplete-markdown.ts is absent from
src/. -/
def handleIncompleteLinks (t : String) : String :=
  if hasUnmatchedOpenBracket t then t ++ "](streamdown:incomplete-link)"
  else
    match splitAtLastLinkOpen t.data with
    | some (pre, post) =>
        if post.contains ')' then t else ⟨pre ++ "streamdown:incomplete-link)".data⟩
    | none => t

/-- Odd number of `~~` strikethrough delimiters (tilde runs of exactly
two; longer runs are fences)? -/
def strikeOpen (t : String) : Bool :=
  ((runLengths '~' t.data).filter (fun n => n = 2)).length % 2 == 1

/-- Modelled from the spec (§4.1f): close an unterminated `~~`
strikethrough. -/
def handleStrikethrough (t : String) : String :=
  if strikeOpen t then t ++ "~~" else t

/-- Modelled from the spec (§4.1): the incomplete-construct repairer,
running the per-construct handlers in the spec's order (block math,
fenced code, inline code, emphasis, links/images, strikethrough). The
source file parse-incomplete-markdown.ts is absent from src/; only its
callers and tests are present. -/
def parseIncompleteMarkdown (t : String) : String :=
  handleStrikethrough (handleIncompleteLinks (handleEmphasis
    (handleInlineCode (handleFences (handleMath t)))))

/-- Does the text end mid-construct for any of the repairer's construct
classes (§4.1a-f)? -/
def hasDanglingConstructs (t : String) : Bool :=
  countSSOdd t || singleDollarOpen t || fenceBacktickOpen t || fenceTildeOpen t ||
  inlineCodeOpen t || emphOpen t || hasUnmatchedOpenBracket t ||
  danglingLinkUrl t || strikeOpen t

/- ### Modelled math tokenization (for the currency/math distinction) -/

/-- Scanner state for counting math tokens. -/
inductive MathState
  | norm
  | inBlock
  | inInline
deriving DecidableEq

/-- Modelled from the spec (§4.1a and §8 currency non-math): count the
math tokens the lexer pipeline produces — `$$...$$` spans count one, a
single `$` opens inline math only when followed by a non-digit,
non-whitespace, non-`$` character, and an unclosed opener yields no
token. The marked/marked-katex lexer is an external dependency, not
repository code. -/
def scanMath : MathState → List Char → Nat
  | _, [] => 0
  | .norm, '$' :: '$' :: rest => scanMath .inBlock rest
  | .norm, '$' :: c :: rest =>
      if c.isDigit || jsWs c || c == '$' then scanMath .norm (c :: rest)
      else scanMath .inInline (c :: rest)
  | .norm, _ :: rest => scanMath .norm rest
  | .inBlock, '$' :: '$' :: rest => 1 + scanMath .norm rest
  | .inBlock, _ :: rest => scanMath .inBlock rest
  | .inInline, '$' :: rest => 1 + scanMath .norm rest
  | .inInline, _ :: rest => scanMath .inInline rest

/-- Number of math tokens of a snapshot. -/
def countMathTokens (s : String) : Nat := scanMath .norm s.data

/- ### Modelled trailing-link extraction (anchor-equivalent token) -/

/-- Accumulate the link text while scanning the reversed characters, up
to the opening `[`. -/
def extLinkText : List Char → List Char → Option (List Char)
  | acc, '[' :: _ => some acc
  | acc, c :: rest => extLinkText (c :: acc) rest
  | _, [] => none

/-- Accumulate the link URL while scanning the reversed characters, up to
the `](` separator, then read the text part. -/
def extLinkUrl : List Char → List Char → Option (List Char × List Char)
  | acc, '(' :: ']' :: rest => (extLinkText [] rest).map (fun text => (text, acc))
  | acc, c :: rest => extLinkUrl (c :: acc) rest
  | _, [] => none

/-- Modelled from the spec: the external Markdown lexer's inline link
rule. Extracts the trailing `[text](url)` anchor of a string as the pair
(visible text, href), the anchor-equivalent token §8 speaks about. -/
def extractTrailingLink (s : String) : Option (String × String) :=
  match s.data.reverse with
  | ')' :: rest => (extLinkUrl [] rest).map (fun p => (⟨p.1⟩, ⟨p.2⟩))
  | _ => none

/- ### Helper lemmas -/

/-- The suspicious-pattern pre-check short-circuits the whole transformer:
whatever the platform parser and configuration, a flagged raw string is
rejected. -/
theorem transform_none_of_suspicious (P : UrlPlatform) (pfxs : List String)
    (d url : String) (h : hasSuspiciousPatterns url = true) :
    transformUrl P pfxs d url = none := by
  have h0 : url ≠ "" := by rintro rfl; exact absurd h (by decide)
  have h1 : url ≠ "streamdown:incomplete-link" := by rintro rfl; exact absurd h (by decide)
  unfold transformUrl
  rw [if_neg h0, if_neg h1, if_pos h]

/-- The math handler leaves text without dangling math untouched. -/
theorem handleMath_id (t : String) (h1 : countSSOdd t = false)
    (h2 : singleDollarOpen t = false) : handleMath t = t := by
  simp [handleMath, h1, h2]

/-- The fence handler leaves text without open fences untouched. -/
theorem handleFences_id (t : String) (h1 : fenceBacktickOpen t = false)
    (h2 : fenceTildeOpen t = false) : handleFences t = t := by
  simp [handleFences, h1, h2]

/-- The inline-code handler leaves text without an open span untouched. -/
theorem handleInlineCode_id (t : String) (h : inlineCodeOpen t = false) :
    handleInlineCode t = t := by
  unfold handleInlineCode
  unfold inlineCodeOpen at h
  cases hs : inlineCodeState none (runLengths btChar t.data) with
  | none => rfl
  | some n => rw [hs] at h; simp at h

/-- The emphasis handler leaves text without open emphasis untouched. -/
theorem handleEmphasis_id (t : String) (h : emphOpen t = false) :
    handleEmphasis t = t := by
  unfold handleEmphasis
  unfold emphOpen at h
  cases hs : emphStack [] (emphTokList t.data) with
  | nil => rfl
  | cons a l => rw [hs] at h; simp at h

/-- The link handler leaves text without a dangling link untouched. -/
theorem handleIncompleteLinks_id (t : String)
    (h1 : hasUnmatchedOpenBracket t = false) (h2 : danglingLinkUrl t = false) :
    handleIncompleteLinks t = t := by
  unfold handleIncompleteLinks
  rw [if_neg (by simp [h1])]
  unfold danglingLinkUrl at h2
  cases hs : splitAtLastLinkOpen t.data with
  | none => rfl
  | some pr =>
      obtain ⟨pre, post⟩ := pr
      rw [hs] at h2
      simp at h2
      simp [h2]

/-- The strikethrough handler leaves text without an open `~~` untouched. -/
theorem handleStrikethrough_id (t : String) (h : strikeOpen t = false) :
    handleStrikethrough t = t := by
  simp [handleStrikethrough, h]

/- ### Claims -/

/-- C3: for every platform parser and configuration, the transformer runs
the suspicious-pattern check on the raw un-normalised string before any
parsing and rejects any input containing a listed control character, a
zero-width character, or a dangerous-protocol token followed by optional
whitespace and a colon (case-insensitively). -/
theorem c3_suspicious_precheck_rejects (P : UrlPlatform) (pfxs : List String)
    (d url : String)
    (h : url.data.any isCtlChar = true ∨ url.data.any isZeroWidth = true ∨
      protoScan url.data = true) :
    transformUrl P pfxs d url = none := by
  refine transform_none_of_suspicious P pfxs d url ?_
  unfold hasSuspiciousPatterns
  rcases h with h | h | h <;> simp [h]

/-- Witness for C3: the tab-separated `javascript\t:` attack form is
rejected by the transformer. -/
theorem c3_witness :
    transformUrl urlPlatformModel [] "" "javascript\t:alert(1)" = none :=
  c3_suspicious_precheck_rejects urlPlatformModel [] "" "javascript\t:alert(1)"
    (Or.inr (Or.inr (by decide)))

/-- C10: for every configuration, any input containing a
dangerous-protocol token followed by optional whitespace and a colon
anywhere as a substring is rejected; in particular
`https://example.com/hotel:info` is rejected even though it parses with
protocol `https:` and would satisfy the allowed prefix. -/
theorem c10_protocol_token_substring_rejected :
    (∀ (P : UrlPlatform) (pfxs : List String) (d url : String),
      protoScan url.data = true → transformUrl P pfxs d url = none) ∧
    protoScan "https://example.com/hotel:info".data = true ∧
    (parseAbsModel "https://example.com/hotel:info").map URLRec.protocol = some "https:" ∧
    transformUrl urlPlatformModel ["https://example.com/"] "https://example.com"
      "https://example.com/hotel:info" = none := by
  refine ⟨?_, by decide, by rfl, ?_⟩
  · intro P pfxs d url h
    exact transform_none_of_suspicious P pfxs d url (by simp [hasSuspiciousPatterns, h])
  · exact transform_none_of_suspicious _ _ _ _ (by decide)

/-- Witness for C10: a string carrying a bare `tel:` substring is
rejected under an arbitrary configuration. -/
theorem c10_witness :
    transformUrl urlPlatformModel [] "" "call tel: now" = none :=
  c10_protocol_token_substring_rejected.1 urlPlatformModel [] "" "call tel: now" (by decide)

/-- C6: the sentinel `streamdown:incomplete-link` passes through every
transformer configuration unchanged, and repairing
`"Text with incomplete [link"` yields the anchor form whose href is the
sentinel and whose visible text is `link`. -/
theorem c6_incomplete_link_sentinel_roundtrip :
    (∀ (P : UrlPlatform) (pfxs : List String) (d : String),
      transformUrl P pfxs d "streamdown:incomplete-link" =
        some "streamdown:incomplete-link") ∧
    parseIncompleteMarkdown "Text with incomplete [link" =
      "Text with incomplete [link](streamdown:incomplete-link)" ∧
    extractTrailingLink (parseIncompleteMarkdown "Text with incomplete [link") =
      some ("link", "streamdown:incomplete-link") := by
  refine ⟨?_, by rfl, by rfl⟩
  intro P pfxs d
  unfold transformUrl
  rw [if_neg (by decide), if_pos rfl]

/-- C7: the currency text `$20 is a sum, $50 and $10` produces zero math
tokens while `$$E=mc^2$$` produces exactly one. -/
theorem c7_currency_not_math :
    countMathTokens "$20 is a sum, $50 and $10" = 0 ∧
    countMathTokens "$$E=mc^2$$" = 1 := ⟨by rfl, by rfl⟩

/-- C1: under any platform parser, a candidate is accepted under a
non-wildcard allow-list entry exactly when the candidate's parsed origin
equals the entry's parsed origin and the candidate's normalised href
starts with the entry's normalised href; consequently, under the
modelled WHATWG parser, `https://prefix.com/prefix/allowed.jpg` is
accepted unchanged, `https://prefix.com/other/file.jpg` and
`https://prefix.com/prefix/../other/file.jpg` are rejected, and
`https://example.com/../../../evil.com/malware` is accepted as
`https://example.com/evil.com/malware`. -/
theorem c1_prefix_accept_iff_origin_and_href :
    (∀ (P : UrlPlatform) (d : String) (parsed pp : URLRec) (pfx : String),
      pfx ≠ "*" → parseUrl P d pfx = some pp →
      (pfxAccepts P d parsed pfx = true ↔
        (pp.origin = parsed.origin ∧ startsWithL parsed.href pp.href = true))) ∧
    transformUrl urlPlatformModel ["https://prefix.com/prefix/"] "https://example.com"
      "https://prefix.com/prefix/allowed.jpg" =
        some "https://prefix.com/prefix/allowed.jpg" ∧
    transformUrl urlPlatformModel ["https://prefix.com/prefix/"] "https://example.com"
      "https://prefix.com/other/file.jpg" = none ∧
    transformUrl urlPlatformModel ["https://prefix.com/prefix/"] "https://example.com"
      "https://prefix.com/prefix/../other/file.jpg" = none ∧
    transformUrl urlPlatformModel ["https://example.com/"] "https://example.com"
      "https://example.com/../../../evil.com/malware" =
        some "https://example.com/evil.com/malware" := by
  refine ⟨?_, by rfl, by rfl, by rfl, by rfl⟩
  intro P d parsed pp pfx _ hparse
  unfold pfxAccepts
  rw [hparse]
  simp [Bool.and_eq_true]

/-- Witness for C1: the allow-list entry `https://prefix.com/prefix/`
parses under the modelled platform parser, and acceptance of the
`allowed.jpg` candidate under it is equivalent to the origin-equality
plus href-prefix condition. -/
theorem c1_witness :
    pfxAccepts urlPlatformModel "https://example.com"
        ⟨"https:", "https://prefix.com", "https://prefix.com/prefix/allowed.jpg",
          "/prefix/allowed.jpg", "", ""⟩ "https://prefix.com/prefix/" = true ↔
      ("https://prefix.com" = "https://prefix.com" ∧
        startsWithL "https://prefix.com/prefix/allowed.jpg"
          "https://prefix.com/prefix/" = true) :=
  c1_prefix_accept_iff_origin_and_href.1 urlPlatformModel "https://example.com"
    ⟨"https:", "https://prefix.com", "https://prefix.com/prefix/allowed.jpg",
      "/prefix/allowed.jpg", "", ""⟩
    ⟨"https:", "https://prefix.com", "https://prefix.com/prefix/", "/prefix/", "", ""⟩
    "https://prefix.com/prefix/" (by decide) (by rfl)

/-- C2: when the allow-list contains the wildcard marker but no specific
entry matched, a parseable, non-suspicious, non-dangerous candidate is
accepted exactly when its parsed protocol is `http:` or `https:`; and
`javascript:alert(1)`, `data:text/html,123`, `file:///etc/passwd` are
all rejected by a wildcard transformer under every platform parser. -/
theorem c2_wildcard_protocol_gate :
    (∀ (P : UrlPlatform) (pfxs : List String) (d url : String) (parsed : URLRec),
      url ≠ "" → url ≠ "streamdown:incomplete-link" →
      hasSuspiciousPatterns url = false →
      parseUrl P d url = some parsed →
      isDangerousProtocol parsed.protocol = false →
      pfxs.any (pfxAccepts P d parsed) = false →
      pfxs.contains "*" = true →
      (transformUrl P pfxs d url ≠ none ↔
        (parsed.protocol = "http:" ∨ parsed.protocol = "https:"))) ∧
    (∀ (P : UrlPlatform) (d : String),
      transformUrl P ["*"] d "javascript:alert(1)" = none) ∧
    (∀ (P : UrlPlatform) (d : String),
      transformUrl P ["*"] d "data:text/html,123" = none) ∧
    (∀ (P : UrlPlatform) (d : String),
      transformUrl P ["*"] d "file:///etc/passwd" = none) := by
  refine ⟨?_, fun P d => transform_none_of_suspicious P ["*"] d _ (by decide),
    fun P d => transform_none_of_suspicious P ["*"] d _ (by decide),
    fun P d => transform_none_of_suspicious P ["*"] d _ (by decide)⟩
  intro P pfxs d url parsed h0 h1 h2 hparse h3 h4 h5
  unfold transformUrl
  rw [if_neg h0, if_neg h1, if_neg (by simp [h2]), hparse]
  dsimp only
  rw [if_neg (by simp [h3]), if_neg (by simp [h4]), if_pos h5]
  split_ifs with hp hr <;> simp <;> tauto

/-- Witness for C2: a concrete wildcard acceptance equivalence at
`https://any.com/x` under the modelled parser. -/
theorem c2_witness :
    transformUrl urlPlatformModel ["*"] "" "https://any.com/x" ≠ none ↔
      (("https:" : String) = "http:" ∨ ("https:" : String) = "https:") :=
  c2_wildcard_protocol_gate.1 urlPlatformModel ["*"] "" "https://any.com/x"
    ⟨"https:", "https://any.com", "https://any.com/x", "/x", "", ""⟩
    (by decide) (by decide) (by decide) (by rfl) (by decide) (by rfl) (by decide)

/-- C4: during the merge pass, one step with a non-empty previous block
either leaves the two blocks separate and unmodified, or merges the
current block into the previous one — and merging happens only when the
previous block is an opened-but-unclosed block-math fragment (starts
with `$$` after leading whitespace, odd `$$` count), the current block
is a standalone closing `$$` or ends with the delimiter, and the
concatenated candidate validates against the block-math shape. -/
theorem c4_merge_only_validated_math (rest : List String) (prev : String)
    (m : TokenMeta) (hne : prev ≠ "") :
    mergeStep (rest ++ [prev]) m = rest ++ [prev, m.raw] ∨
    (mergeStep (rest ++ [prev]) m = rest ++ [prev ++ m.raw] ∧
      startsWithL (trimLeftL prev) "$$" = true ∧ countSS prev % 2 = 1 ∧
      (trimL m.raw = "$$" ∨ endsWithL (trimRightL m.raw) "$$" = true) ∧
      blockKatexTest (trimL (prev ++ m.raw)) = true) := by
  have hlast : (rest ++ [prev]).getLast? = some prev := by
    simp [List.getLast?_append]
  have hdrop : (rest ++ [prev]).dropLast = rest := by
    simp
  have hsep : (rest ++ [prev]) ++ [m.raw] = rest ++ [prev, m.raw] := by
    simp
  have htail : mergeStepTail (rest ++ [prev]) prev m = rest ++ [prev, m.raw] ∨
      (mergeStepTail (rest ++ [prev]) prev m = rest ++ [prev ++ m.raw] ∧
        startsWithL (trimLeftL prev) "$$" = true ∧ countSS prev % 2 = 1 ∧
        (trimL m.raw = "$$" ∨ endsWithL (trimRightL m.raw) "$$" = true) ∧
        blockKatexTest (trimL (prev ++ m.raw)) = true) := by
    unfold mergeStepTail
    split_ifs with h1 h2
    · exact Or.inr ⟨by rw [hdrop], h2.1, h2.2.1, Or.inr h1, h2.2.2.2.2⟩
    · exact Or.inl hsep
    · exact Or.inl hsep
  unfold mergeStep
  rw [hlast]
  dsimp only
  split_ifs with hk ht hc1
  · exact Or.inl hsep
  · exact Or.inr ⟨by rw [hdrop], hc1.1, hc1.2.1, Or.inl ht, hc1.2.2⟩
  · exact htail
  · exact htail

/-- Witness for C4: a concrete merge step where the previous block is an
open `$$` fragment and the current block is a standalone closing `$$`. -/
theorem c4_witness :
    mergeStep ([] ++ ["$$\nx\n"]) ⟨"$$", "paragraph"⟩ = [] ++ ["$$\nx\n", "$$"] ∨
    (mergeStep ([] ++ ["$$\nx\n"]) ⟨"$$", "paragraph"⟩ = [] ++ ["$$\nx\n" ++ "$$"] ∧
      startsWithL (trimLeftL "$$\nx\n") "$$" = true ∧ countSS "$$\nx\n" % 2 = 1 ∧
      (trimL "$$" = "$$" ∨ endsWithL (trimRightL "$$") "$$" = true) ∧
      blockKatexTest (trimL ("$$\nx\n" ++ "$$")) = true) :=
  c4_merge_only_validated_math [] "$$\nx\n" ⟨"$$", "paragraph"⟩ (by decide)

/-- C8: the repairer is the identity on text with no dangling construct
of any handled class. -/
theorem c8_repair_identity_on_complete (t : String)
    (h : hasDanglingConstructs t = false) : parseIncompleteMarkdown t = t := by
  unfold hasDanglingConstructs at h
  simp only [Bool.or_eq_false_iff] at h
  obtain ⟨⟨⟨⟨⟨⟨⟨⟨h1, h2⟩, h3⟩, h4⟩, h5⟩, h6⟩, h7⟩, h8⟩, h9⟩ := h
  unfold parseIncompleteMarkdown
  rw [handleMath_id t h1 h2, handleFences_id t h3 h4, handleInlineCode_id t h5,
    handleEmphasis_id t h6, handleIncompleteLinks_id t h7 h8,
    handleStrikethrough_id t h9]

/-- Witness for C8: a complete text with currency, emphasis, a closed
link, closed block math and a closed code span is returned unchanged. -/
theorem c8_witness :
    hasDanglingConstructs "hello $20 **bold** [x](y) and $$m$$" = false ∧
    parseIncompleteMarkdown "hello $20 **bold** [x](y) and $$m$$" =
      "hello $20 **bold** [x](y) and $$m$$" :=
  ⟨by decide, c8_repair_identity_on_complete _ (by decide)⟩

/-- C9 counterexample: repairing `"Text with incomplete [link"` does not
leave it as plain text — it produces the complete sentinel anchor form,
refuting the claim that a `[text` with no closing `]` is rendered as
plain text rather than an anchor. -/
theorem c9_counterexample :
    parseIncompleteMarkdown "Text with incomplete [link" ≠
      "Text with incomplete [link" ∧
    parseIncompleteMarkdown "Text with incomplete [link" =
      "Text with incomplete [link](streamdown:incomplete-link)" ∧
    extractTrailingLink (parseIncompleteMarkdown "Text with incomplete [link") =
      some ("link", "streamdown:incomplete-link") := ⟨by decide, by rfl, by rfl⟩

/-- C9 amended: an input ending in an unterminated `[text` is completed
into an anchor pointing to the sentinel incomplete-link URL with the
bracket text as visible text, and an input ending in `[text](url` with
no closing parenthesis likewise becomes a complete anchor pointing to
the sentinel. -/
theorem c9_unterminated_bracket_becomes_anchor :
    parseIncompleteMarkdown "Text with incomplete [link" =
      "Text with incomplete [link](streamdown:incomplete-link)" ∧
    extractTrailingLink (parseIncompleteMarkdown "Text with incomplete [link") =
      some ("link", "streamdown:incomplete-link") ∧
    parseIncompleteMarkdown "See [docs](https://exam" =
      "See [docs](streamdown:incomplete-link)" ∧
    extractTrailingLink (parseIncompleteMarkdown "See [docs](https://exam") =
      some ("docs", "streamdown:incomplete-link") := ⟨by rfl, by rfl, by rfl, by rfl⟩
